import Mathlib

/-!
Verification development for the jGrants MCP server
(`src/jgrants_mcp_server/core.py`), a Python module that wraps the
public jGrants subsidy-search API.  The definitions below are a shallow
embedding of the pure core of that module: statistics bucketing
(`get_subsidy_overview`), CSV rendering (`_convert_statistics_to_csv`),
status derivation and attachment persistence (`get_subsidy_detail`), and
file retrieval with its extraction fallback chain (`get_file_content`).
Machine-level details are modelled as follows: bytes are `Fin 256`,
timestamps are epoch seconds as `ℤ`, Python floats are exact rationals,
the filesystem is a map from normalized POSIX path components to byte
lists, and the third-party converters (MarkItDown, pdfplumber) and the
UTF-8 file read are opaque oracles, as the module treats them.
-/

namespace JG

/-- A byte, as stored in decoded attachment files. -/
abbrev Byte := Fin 256

/-- Characters removed by Python `str.strip()` on the inputs this module
sees (ASCII whitespace).  Models `file_base64.strip()`. -/
def pyWS (c : Char) : Bool :=
  c = ' ' || c = '\t' || c = '\n' || c = '\r' || c.toNat = 11 || c.toNat = 12

/-- Python `str.strip()`: drop whitespace from both ends. -/
def pyStrip (s : String) : String :=
  (((s.toList.dropWhile pyWS).reverse.dropWhile pyWS).reverse).asString

/-- Decimal digit characters of a natural number, most significant first.
Models the rendering of `idx+1` inside the Python f-string
`f"{base_name}_{idx+1}.pdf"`. -/
def natChars (n : ℕ) : List Char :=
  if h : n < 10 then [Char.ofNat (48 + n)]
  else natChars (n / 10) ++ [Char.ofNat (48 + n % 10)]
  decreasing_by exact Nat.div_lt_self (by omega) (by omega)

/-! ## Filename sanitization (`get_subsidy_detail`, lines 567-580)

The Python code removes the characters `< > : " | ? * \ /` (each replaced
by `_` via `re.sub`), converts spaces to `_`, and falls back to the
generated name `f"{base_name}_{idx+1}.pdf"` when the result is empty or a
single underscore. -/

/-- The disallowed character set of `re.sub(r'[<>:"|?*\\/]', '_', name)`. -/
def dangerousChar (c : Char) : Bool :=
  c = '<' || c = '>' || c = ':' || c = '"' || c = '|' || c = '?' || c = '*' || c = '\\' || c = '/'

/-- One character of the `re.sub` replacement. -/
def sanChar (c : Char) : Char := if dangerousChar c then '_' else c

/-- One character of `safe_file_name.replace(' ', '_')`. -/
def spChar (c : Char) : Char := if c = ' ' then '_' else c

/-- The two character-replacement passes of the sanitizer. -/
def sanitizeCore (l : List Char) : List Char := (l.map sanChar).map spChar

/-- The three fixed attachment categories of `files_data`. -/
inductive FileCategory
  | application_guidelines
  | outline_of_grant
  | application_form
deriving DecidableEq

/-- The `file_type_names` table mapping each category to its label. -/
def categoryLabel : FileCategory → String
  | .application_guidelines => "申請ガイドライン"
  | .outline_of_grant => "補助金概要"
  | .application_form => "申請書"

/-- The generated fallback file name `f"{base_name}_{idx+1}.pdf"`. -/
def fallbackName (base : String) (idx : ℕ) : String :=
  base ++ "_" ++ (natChars (idx + 1)).asString ++ ".pdf"

/-- The full sanitization rule: replacement passes, then the
empty-or-underscore fallback. -/
def sanitizeStr (fb : String) (name : String) : String :=
  let s := sanitizeCore name.toList
  if s = [] ∨ s = ['_'] then fb else s.asString

/-! Helper lemmas for sanitization idempotence. -/

/-- Composite per-character transform of the sanitizer. -/
def tChar (c : Char) : Char := spChar (sanChar c)

theorem sanitizeCore_eq_map (l : List Char) : sanitizeCore l = l.map tChar := by
  simp [sanitizeCore, tChar, List.map_map]

theorem tChar_idem (c : Char) : tChar (tChar c) = tChar c := by
  by_cases hd : dangerousChar c = true
  · simp [tChar, sanChar, spChar, hd]
  · by_cases hs : c = ' '
    · subst hs; decide
    · simp [tChar, sanChar, spChar, hd, hs]

theorem sanitizeCore_idem (l : List Char) : sanitizeCore (sanitizeCore l) = sanitizeCore l := by
  simp only [sanitizeCore_eq_map, List.map_map]
  exact List.map_congr_left (fun c _ => tChar_idem c)

theorem tChar_digit (d : ℕ) (h : d < 10) : tChar (Char.ofNat (48 + d)) = Char.ofNat (48 + d) := by
  have : ∀ d : Fin 10, tChar (Char.ofNat (48 + d.val)) = Char.ofNat (48 + d.val) := by decide
  exact this ⟨d, h⟩

theorem natChars_map_tChar (n : ℕ) : (natChars n).map tChar = natChars n := by
  induction n using Nat.strong_induction_on with
  | _ n ih =>
    rw [natChars]
    by_cases h : n < 10
    · simp only [h, dite_true, List.map_cons, List.map_nil]
      rw [tChar_digit n h]
    · simp only [h, dite_false, List.map_append, List.map_cons, List.map_nil]
      rw [ih (n / 10) (Nat.div_lt_self (by omega) (by omega)),
        tChar_digit (n % 10) (Nat.mod_lt n (by omega))]

theorem fallback_fixed (cat : FileCategory) (idx : ℕ) :
    sanitizeCore (fallbackName (categoryLabel cat) idx).toList
      = (fallbackName (categoryLabel cat) idx).toList := by
  have hbase : ((categoryLabel cat).data).map tChar = (categoryLabel cat).data := by
    cases cat <;> decide
  rw [sanitizeCore_eq_map]
  simp only [fallbackName, String.toList, String.data_append, List.map_append]
  rw [hbase, show ((natChars (idx + 1)).asString).data = natChars (idx + 1) from rfl,
    natChars_map_tChar]
  rfl

theorem fallback_long (cat : FileCategory) (idx : ℕ) :
    4 ≤ (fallbackName (categoryLabel cat) idx).toList.length := by
  simp only [fallbackName, String.toList, String.data_append, List.length_append]
  have h4 : (['.', 'p', 'd', 'f'] : List Char).length = 4 := rfl
  omega

/-- C9: the filename-sanitization rule of `get_subsidy_detail` (strip the
disallowed characters, convert spaces to underscore, and substitute the
generated fallback name `{category_label}_{idx+1}.pdf` when the result is
empty or a single underscore) is idempotent: applying it twice yields the
same result as applying it once, for every input filename, category and
index. -/
theorem C9_sanitize_idempotent (cat : FileCategory) (idx : ℕ) (name : String) :
    sanitizeStr (fallbackName (categoryLabel cat) idx)
        (sanitizeStr (fallbackName (categoryLabel cat) idx) name)
      = sanitizeStr (fallbackName (categoryLabel cat) idx) name := by
  set fb := fallbackName (categoryLabel cat) idx with hfb
  have hfbne : ¬(fb.toList = [] ∨ fb.toList = ['_']) := by
    intro h
    have := fallback_long cat idx
    rw [← hfb] at this
    rcases h with h | h <;> rw [h] at this <;> simp at this
  unfold sanitizeStr
  by_cases h : sanitizeCore name.toList = [] ∨ sanitizeCore name.toList = ['_']
  · simp only [h, if_true, ite_true]
    have hfix : sanitizeCore fb.toList = fb.toList := fallback_fixed cat idx
    rw [hfix]
    simp only [hfbne, if_false, ite_false]
    rfl
  · simp only [h, if_false, ite_false]
    have htl : ((sanitizeCore name.toList).asString).toList = sanitizeCore name.toList := rfl
    rw [htl, sanitizeCore_idem]
    simp only [h, if_false, ite_false]

/-! ## Base64 (`base64.b64decode` / `base64.b64encode`)

Standard-alphabet base64.  Decoding models `base64.b64decode` with its
default `validate=False`: characters outside the alphabet are discarded
first, then canonically padded four-character groups are decoded; inputs
whose surviving characters are not canonically padded groups are decode
errors.  Encoding models `base64.b64encode(...).decode('utf-8')`. -/

/-- Character of a six-bit value in the standard base64 alphabet. -/
def encChar (n : ℕ) : Char :=
  if n < 26 then Char.ofNat (65 + n)
  else if n < 52 then Char.ofNat (97 + (n - 26))
  else if n < 62 then Char.ofNat (48 + (n - 52))
  else if n = 62 then '+' else '/'

/-- Six-bit value of a standard base64 alphabet character. -/
def decChar (c : Char) : Option ℕ :=
  if 'A' ≤ c ∧ c ≤ 'Z' then some (c.toNat - 65)
  else if 'a' ≤ c ∧ c ≤ 'z' then some (c.toNat - 97 + 26)
  else if '0' ≤ c ∧ c ≤ '9' then some (c.toNat - 48 + 52)
  else if c = '+' then some 62
  else if c = '/' then some 63
  else none

/-- Characters kept by the decoder (alphabet characters and padding). -/
def b64Keep (c : Char) : Bool := (decChar c).isSome || c = '='

/-- Base64 encoding of a byte list, with canonical padding. -/
def b64EncodeChars : List Byte → List Char
  | [] => []
  | [a] => [encChar (a.val / 4), encChar (a.val % 4 * 16), '=', '=']
  | [a, b] =>
    [encChar (a.val / 4), encChar (a.val % 4 * 16 + b.val / 16), encChar (b.val % 16 * 4), '=']
  | a :: b :: c :: rest =>
    encChar (a.val / 4) :: encChar (a.val % 4 * 16 + b.val / 16) ::
      encChar (b.val % 16 * 4 + c.val / 64) :: encChar (c.val % 64) :: b64EncodeChars rest

/-- Decoding of canonically padded four-character base64 groups. -/
def b64DecodeQuads : List Char → Option (List Byte)
  | [] => some []
  | c1 :: c2 :: c3 :: c4 :: rest =>
    if c3 = '=' then
      if c4 = '=' ∧ rest = [] then
        match decChar c1, decChar c2 with
        | some s1, some s2 => some [⟨(s1 * 4 + s2 / 16) % 256, Nat.mod_lt _ (by omega)⟩]
        | _, _ => none
      else none
    else if c4 = '=' then
      if rest = [] then
        match decChar c1, decChar c2, decChar c3 with
        | some s1, some s2, some s3 =>
          some [⟨(s1 * 4 + s2 / 16) % 256, Nat.mod_lt _ (by omega)⟩,
            ⟨(s2 % 16 * 16 + s3 / 4) % 256, Nat.mod_lt _ (by omega)⟩]
        | _, _, _ => none
      else none
    else
      match decChar c1, decChar c2, decChar c3, decChar c4, b64DecodeQuads rest with
      | some s1, some s2, some s3, some s4, some tail =>
        some (⟨(s1 * 4 + s2 / 16) % 256, Nat.mod_lt _ (by omega)⟩ ::
          ⟨(s2 % 16 * 16 + s3 / 4) % 256, Nat.mod_lt _ (by omega)⟩ ::
          ⟨(s3 % 4 * 64 + s4) % 256, Nat.mod_lt _ (by omega)⟩ :: tail)
      | _, _, _, _, _ => none
  | _ => none

/-- Model of `base64.b64decode(s)`: discard non-alphabet characters, decode. -/
def pyB64decode (s : String) : Option (List Byte) :=
  b64DecodeQuads (s.toList.filter b64Keep)

/-- Model of `base64.b64encode(bs).decode('utf-8')`. -/
def pyB64encode (bs : List Byte) : String := (b64EncodeChars bs).asString

theorem decChar_encChar (n : ℕ) (h : n < 64) : decChar (encChar n) = some n := by
  have : ∀ m : Fin 64, decChar (encChar m.val) = some m.val := by decide
  exact this ⟨n, h⟩

theorem encChar_ne_pad (n : ℕ) (h : n < 64) : encChar n ≠ '=' := by
  have : ∀ m : Fin 64, encChar m.val ≠ '=' := by decide
  exact this ⟨n, h⟩

theorem b64Keep_encChar (n : ℕ) (h : n < 64) : b64Keep (encChar n) = true := by
  simp [b64Keep, decChar_encChar n h]

theorem b64Keep_pad : b64Keep '=' = true := by decide

theorem b64EncodeChars_all_keep :
    ∀ bs : List Byte, ∀ c ∈ b64EncodeChars bs, b64Keep c = true
  | [] => by simp [b64EncodeChars]
  | [a] => by
    have h1 : a.val / 4 < 64 := by omega
    have h2 : a.val % 4 * 16 < 64 := by omega
    intro c hc
    simp only [b64EncodeChars, List.mem_cons, List.not_mem_nil, or_false] at hc
    rcases hc with rfl | rfl | rfl | rfl
    · exact b64Keep_encChar _ h1
    · exact b64Keep_encChar _ h2
    · exact b64Keep_pad
    · exact b64Keep_pad
  | [a, b] => by
    have h1 : a.val / 4 < 64 := by omega
    have h2 : a.val % 4 * 16 + b.val / 16 < 64 := by omega
    have h3 : b.val % 16 * 4 < 64 := by omega
    intro c hc
    simp only [b64EncodeChars, List.mem_cons, List.not_mem_nil, or_false] at hc
    rcases hc with rfl | rfl | rfl | rfl
    · exact b64Keep_encChar _ h1
    · exact b64Keep_encChar _ h2
    · exact b64Keep_encChar _ h3
    · exact b64Keep_pad
  | a :: b :: c0 :: rest => by
    have h1 : a.val / 4 < 64 := by omega
    have h2 : a.val % 4 * 16 + b.val / 16 < 64 := by omega
    have h3 : b.val % 16 * 4 + c0.val / 64 < 64 := by omega
    have h4 : c0.val % 64 < 64 := by omega
    intro c hc
    simp only [b64EncodeChars, List.mem_cons] at hc
    rcases hc with rfl | rfl | rfl | rfl | hmem
    · exact b64Keep_encChar _ h1
    · exact b64Keep_encChar _ h2
    · exact b64Keep_encChar _ h3
    · exact b64Keep_encChar _ h4
    · exact b64EncodeChars_all_keep rest c hmem

theorem b64EncodeChars_filter (bs : List Byte) :
    (b64EncodeChars bs).filter b64Keep = b64EncodeChars bs :=
  List.filter_eq_self.mpr (b64EncodeChars_all_keep bs)

theorem b64DecodeQuads_encode :
    ∀ bs : List Byte, b64DecodeQuads (b64EncodeChars bs) = some bs
  | [] => rfl
  | [a] => by
    have h1 : a.val / 4 < 64 := by omega
    have h2 : a.val % 4 * 16 < 64 := by omega
    have ha := a.isLt
    simp [b64EncodeChars, b64DecodeQuads, decChar_encChar _ h1, decChar_encChar _ h2,
      Fin.ext_iff]
    omega
  | [a, b] => by
    have h1 : a.val / 4 < 64 := by omega
    have h2 : a.val % 4 * 16 + b.val / 16 < 64 := by omega
    have h3 : b.val % 16 * 4 < 64 := by omega
    have ha := a.isLt
    have hb := b.isLt
    simp [b64EncodeChars, b64DecodeQuads, encChar_ne_pad _ h3, decChar_encChar _ h1,
      decChar_encChar _ h2, decChar_encChar _ h3, Fin.ext_iff]
    omega
  | a :: b :: c :: rest => by
    have h1 : a.val / 4 < 64 := by omega
    have h2 : a.val % 4 * 16 + b.val / 16 < 64 := by omega
    have h3 : b.val % 16 * 4 + c.val / 64 < 64 := by omega
    have h4 : c.val % 64 < 64 := by omega
    have ha := a.isLt
    have hb := b.isLt
    have hc := c.isLt
    have ih := b64DecodeQuads_encode rest
    simp [b64EncodeChars, b64DecodeQuads, encChar_ne_pad _ h3, encChar_ne_pad _ h4,
      decChar_encChar _ h1, decChar_encChar _ h2, decChar_encChar _ h3, decChar_encChar _ h4,
      ih, Fin.ext_iff]
    omega

/-- Decoding is a left inverse of encoding, through the full
`b64decode`-with-discard pipeline. -/
theorem pyB64decode_encode (bs : List Byte) : pyB64decode (pyB64encode bs) = some bs := by
  show b64DecodeQuads (((b64EncodeChars bs).asString).toList.filter b64Keep) = some bs
  have : ((b64EncodeChars bs).asString).toList = b64EncodeChars bs := rfl
  rw [this, b64EncodeChars_filter, b64DecodeQuads_encode]

/-! ## Timestamps (`datetime.fromisoformat` and epoch arithmetic)

The module parses `acceptance_end_datetime` with
`datetime.fromisoformat(raw.replace("Z", "+00:00"))` and then compares or
subtracts timezone-aware datetimes.  We model an aware datetime by its
epoch-second instant (`ℤ`).  The modelled grammar is the offset-aware
form the upstream API emits after the `Z` replacement,
`YYYY-MM-DDThh:mm:ss±hh:mm`; strings outside this grammar (including
naive timestamps, which make the subsequent aware/naive arithmetic fail
and are swallowed by the same `except` blocks) are parse failures. -/

/-- Split a character list on a separator character. -/
def splitCharAux (sep : Char) : List Char → List Char → List (List Char)
  | [], acc => [acc.reverse]
  | c :: cs, acc =>
    if c = sep then acc.reverse :: splitCharAux sep cs []
    else splitCharAux sep cs (c :: acc)

/-- ASCII lowercasing of a string (`.lower()` on the extensions and
format flags used here). -/
def lowerStr (s : String) : String := (s.toList.map Char.toLower).asString

/-- Whether `s` starts with `p` (`str.startswith`). -/
def startsWithStr (s p : String) : Bool := s.toList.take p.toList.length = p.toList

/-- Value of a decimal digit character. -/
def digVal (c : Char) : Option ℕ :=
  if '0' ≤ c ∧ c ≤ '9' then some (c.toNat - 48) else none

/-- Model of `raw.replace("Z", "+00:00")`: every occurrence of the one-character
pattern `Z` is replaced. -/
def replaceZ (s : String) : String :=
  ((s.toList.map (fun c => if c = 'Z' then "+00:00".toList else [c])).flatten).asString

/-- Read exactly `k` digits into a number (most significant first). -/
def readDigits : ℕ → ℕ → List Char → Option (ℕ × List Char)
  | 0, acc, cs => some (acc, cs)
  | k + 1, acc, c :: cs =>
    match digVal c with
    | some v => readDigits k (acc * 10 + v) cs
    | none => none
  | _ + 1, _, [] => none

/-- Expect a literal character. -/
def expectCh (c : Char) : List Char → Option (List Char)
  | d :: cs => if d = c then some cs else none
  | [] => none

/-- Whether a (proleptic Gregorian) year is a leap year. -/
def isLeap (y : ℕ) : Bool := (y % 4 = 0 && y % 100 ≠ 0) || y % 400 = 0

/-- Days in a month, as validated by `datetime`. -/
def daysInMonth (y m : ℕ) : ℕ :=
  if m = 2 then (if isLeap y then 29 else 28)
  else if m = 4 ∨ m = 6 ∨ m = 9 ∨ m = 11 then 30
  else 31

/-- Days from 1970-01-01 to the given civil date (Gregorian). -/
def daysFromCivil (y m d : ℕ) : ℤ :=
  let y2 := if m ≤ 2 then y - 1 else y
  let era := y2 / 400
  let yoe := y2 % 400
  let mp := if 2 < m then m - 3 else m + 9
  let doy := (153 * mp + 2) / 5 + (d - 1)
  let doe := yoe * 365 + yoe / 4 - yoe / 100 + doy
  (era * 146097 + doe : ℤ) - 719468

/-- Parse the UTC offset `±hh:mm` and return its signed seconds. -/
def parseOffset : List Char → Option ℤ
  | c :: cs =>
    if c = '+' ∨ c = '-' then
      match readDigits 2 0 cs with
      | some (oh, cs) =>
        match expectCh ':' cs with
        | some cs =>
          match readDigits 2 0 cs with
          | some (om, cs) =>
            if cs = [] ∧ oh ≤ 23 ∧ om ≤ 59 then
              some (if c = '-' then -(3600 * oh + 60 * om : ℤ) else (3600 * oh + 60 * om : ℤ))
            else none
          | none => none
        | none => none
      | none => none
    else none
  | [] => none

/-- Model of `datetime.fromisoformat` restricted to offset-aware
`YYYY-MM-DDThh:mm:ss±hh:mm`, returning the epoch-second instant. -/
def pyFromIso (s : String) : Option ℤ :=
  match readDigits 4 0 s.toList with
  | some (y, cs) =>
    match expectCh '-' cs with
    | some cs =>
      match readDigits 2 0 cs with
      | some (mo, cs) =>
        match expectCh '-' cs with
        | some cs =>
          match readDigits 2 0 cs with
          | some (d, cs) =>
            match expectCh 'T' cs with
            | some cs =>
              match readDigits 2 0 cs with
              | some (h, cs) =>
                match expectCh ':' cs with
                | some cs =>
                  match readDigits 2 0 cs with
                  | some (mi, cs) =>
                    match expectCh ':' cs with
                    | some cs =>
                      match readDigits 2 0 cs with
                      | some (sec, cs) =>
                        match parseOffset cs with
                        | some off =>
                          if 1 ≤ y ∧ 1 ≤ mo ∧ mo ≤ 12 ∧ 1 ≤ d ∧ d ≤ daysInMonth y mo ∧
                              h ≤ 23 ∧ mi ≤ 59 ∧ sec ≤ 59 then
                            some (86400 * daysFromCivil y mo d +
                              (3600 * h + 60 * mi + sec : ℤ) - off)
                          else none
                        | none => none
                      | none => none
                    | none => none
                  | none => none
                | none => none
              | none => none
            | none => none
          | none => none
        | none => none
      | none => none
    | none => none
  | none => none

/-! ## Python `float()` (`float(max_limit)`)

Exact-rational model of `float()` on finite decimal literals: optional
surrounding whitespace, optional sign, digits with an optional fractional
part and an optional decimal exponent.  Inputs outside this grammar
(`inf`, `nan`, underscore separators) are parse failures; values are kept
exact rather than rounded to binary floating point. -/

/-- Greedily read decimal digits, returning them with the rest. -/
def readWhileDigits : List Char → List ℕ × List Char
  | [] => ([], [])
  | c :: cs =>
    match digVal c with
    | some v =>
      let (ds, rest) := readWhileDigits cs
      (v :: ds, rest)
    | none => ([], c :: cs)

/-- Value of a digit list read most significant first. -/
def digitsVal (ds : List ℕ) : ℕ := ds.foldl (fun acc d => acc * 10 + d) 0

/-- Mantissa part: `digits [. digits]`, `digits .`, or `. digits`.  The
value is built with `mkRat` (division-free, so it evaluates by kernel
reduction). -/
def parseMantissa (cs : List Char) : Option (ℚ × List Char) :=
  let (ip, rest) := readWhileDigits cs
  match rest with
  | '.' :: rest2 =>
    let (fp, rest3) := readWhileDigits rest2
    if ip = [] ∧ fp = [] then none
    else some (mkRat (digitsVal ip * 10 ^ fp.length + digitsVal fp) (10 ^ fp.length), rest3)
  | _ => if ip = [] then none else some (mkRat (digitsVal ip) 1, rest)

/-- Exponent part: optional `e`/`E` with optional sign and digits. -/
def parseExpPart (v : ℚ) : List Char → Option ℚ
  | [] => some v
  | c :: cs =>
    if c = 'e' ∨ c = 'E' then
      match cs with
      | '+' :: cs2 =>
        let (ds, rest) := readWhileDigits cs2
        if ds = [] ∨ rest ≠ [] then none else some (v * mkRat (10 ^ digitsVal ds) 1)
      | '-' :: cs2 =>
        let (ds, rest) := readWhileDigits cs2
        if ds = [] ∨ rest ≠ [] then none else some (v * mkRat 1 (10 ^ digitsVal ds))
      | _ =>
        let (ds, rest) := readWhileDigits cs
        if ds = [] ∨ rest ≠ [] then none else some (v * mkRat (10 ^ digitsVal ds) 1)
    else none

/-- Model of Python `float()` on finite decimal literals. -/
def pyFloat (s : String) : Option ℚ :=
  match (pyStrip s).toList with
  | '+' :: cs =>
    match parseMantissa cs with
    | some (v, rest) => parseExpPart v rest
    | none => none
  | '-' :: cs =>
    match parseMantissa cs with
    | some (v, rest) => (parseExpPart v rest).map (fun q => -q)
    | none => none
  | cs =>
    match parseMantissa cs with
    | some (v, rest) => parseExpPart v rest
    | none => none

/-! ## Statistics engine (`get_subsidy_overview`, lines 250-336)

Each upstream record is reduced to the fields the routine reads.  The
`subsidy_max_limit` JSON value may be a number or a string (the code
calls `float()` on it), and the Python truthiness test `if max_limit:`
distinguishes the two. -/

/-- A JSON field value as read for `subsidy_max_limit`. -/
inductive JVal
  | num (q : ℚ)
  | str (s : String)
deriving DecidableEq

/-- Python truthiness of a `JVal` (`0`/`0.0` and `""` are falsy). -/
def jTruthy : JVal → Bool
  | .num q => q ≠ 0
  | .str s => s ≠ ""

/-- Parsing `float(v)` applied to a JSON value. -/
def jFloat : JVal → Option ℚ
  | .num q => some q
  | .str s => pyFloat s

/-- The fields of one upstream subsidy record that the statistics
routine reads (absent JSON keys are `none`). -/
structure Subsidy where
  id : Option String
  title : Option String
  acceptance_end_datetime : Option String
  subsidy_max_limit : Option JVal
deriving DecidableEq

/-- The `by_deadline_period` histogram dictionary. -/
structure DeadlineBuckets where
  accepting : ℕ
  this_month : ℕ
  next_month : ℕ
  after_next_month : ℕ
deriving DecidableEq

/-- The `by_amount_range` histogram dictionary. -/
structure AmountBuckets where
  under_1m : ℕ
  under_10m : ℕ
  under_100m : ℕ
  over_100m : ℕ
  unspecified : ℕ
deriving DecidableEq

/-- One entry of the `urgent_deadlines` list. -/
structure UrgentItem where
  id : Option String
  title : Option String
  days_left : ℤ
deriving DecidableEq

/-- One entry of the `high_amount_subsidies` list. -/
structure HighAmountItem where
  id : Option String
  title : Option String
  max_amount : ℚ
deriving DecidableEq

/-- The statistics snapshot built by `get_subsidy_overview`. -/
structure Stats where
  total_count : ℕ
  by_deadline_period : DeadlineBuckets
  by_amount_range : AmountBuckets
  urgent_deadlines : List UrgentItem
  high_amount_subsidies : List HighAmountItem
  statistics_generated_at : String
deriving DecidableEq

/-- The snapshot as initialized before the classification loop. -/
def initStats (count : ℕ) (genAt : String) : Stats :=
  { total_count := count
    by_deadline_period := ⟨0, 0, 0, 0⟩
    by_amount_range := ⟨0, 0, 0, 0, 0⟩
    urgent_deadlines := []
    high_amount_subsidies := []
    statistics_generated_at := genAt }

/-- Deadline classification of one record: parse the end timestamp
(after the `Z` → `+00:00` replacement), compute
`days_left = (end_date - now).days` (floor of whole days), skip past
records, bucket the rest and collect the 0-14 day urgent entries.
Records whose field is absent, falsy, or fails aware parsing/arithmetic
are skipped (the code's `if`-guard and `except: pass`). -/
def deadlineStep (now : ℤ) (st : Stats) (s : Subsidy) : Stats :=
  match s.acceptance_end_datetime with
  | none => st
  | some raw =>
    if raw = "" then st
    else
      match pyFromIso (replaceZ raw) with
      | none => st
      | some e =>
        let d := Int.fdiv (e - now) 86400
        if d < 0 then st
        else
          let st1 :=
            if d ≤ 30 then
              { st with by_deadline_period :=
                  { st.by_deadline_period with
                    this_month := st.by_deadline_period.this_month + 1 } }
            else if d ≤ 60 then
              { st with by_deadline_period :=
                  { st.by_deadline_period with
                    next_month := st.by_deadline_period.next_month + 1 } }
            else
              { st with by_deadline_period :=
                  { st.by_deadline_period with
                    after_next_month := st.by_deadline_period.after_next_month + 1 } }
          if 0 ≤ d ∧ d ≤ 14 then
            { st1 with urgent_deadlines := st1.urgent_deadlines ++ [⟨s.id, s.title, d⟩] }
          else st1

/-- Amount classification of one record: truthy values are parsed with
`float()`; parse failures and falsy/absent values increment
`unspecified`; parsed amounts go to their range bucket and, at or above
50,000,000, to the high-amount list. -/
def amountStep (st : Stats) (s : Subsidy) : Stats :=
  match s.subsidy_max_limit with
  | none =>
    { st with by_amount_range :=
        { st.by_amount_range with unspecified := st.by_amount_range.unspecified + 1 } }
  | some v =>
    if jTruthy v then
      match jFloat v with
      | none =>
        { st with by_amount_range :=
            { st.by_amount_range with unspecified := st.by_amount_range.unspecified + 1 } }
      | some a =>
        let st1 :=
          if a ≤ 1000000 then
            { st with by_amount_range :=
                { st.by_amount_range with under_1m := st.by_amount_range.under_1m + 1 } }
          else if a ≤ 10000000 then
            { st with by_amount_range :=
                { st.by_amount_range with under_10m := st.by_amount_range.under_10m + 1 } }
          else if a ≤ 100000000 then
            { st with by_amount_range :=
                { st.by_amount_range with under_100m := st.by_amount_range.under_100m + 1 } }
          else
            { st with by_amount_range :=
                { st.by_amount_range with over_100m := st.by_amount_range.over_100m + 1 } }
        if 50000000 ≤ a then
          { st1 with high_amount_subsidies :=
              st1.high_amount_subsidies ++ [⟨s.id, s.title, a⟩] }
        else st1
    else
      { st with by_amount_range :=
          { st.by_amount_range with unspecified := st.by_amount_range.unspecified + 1 } }

/-- Whether the record hits the loop's `continue` (line 289): its end
timestamp is truthy, parses, and lies strictly in the past in whole
days.  Such a record skips the amount classification entirely. -/
def pastDeadline (now : ℤ) (s : Subsidy) : Bool :=
  match s.acceptance_end_datetime with
  | none => false
  | some raw =>
    if raw = "" then false
    else
      match pyFromIso (replaceZ raw) with
      | none => false
      | some e => Int.fdiv (e - now) 86400 < 0

/-- One iteration of the classification loop: the deadline pass, then —
unless the record took the `continue` for a parseable past deadline —
the amount pass. -/
def overviewStep (now : ℤ) (st : Stats) (s : Subsidy) : Stats :=
  let st1 := deadlineStep now st s
  if pastDeadline now s then st1 else amountStep st1 s

/-- The statistics computed by `get_subsidy_overview` over a search
result list (`total_count` is the list length, as `len(data["result"])`
from the search adapter). -/
def computeStats (now : ℤ) (genAt : String) (subs : List Subsidy) : Stats :=
  subs.foldl (overviewStep now) (initStats subs.length genAt)

/-! ## CSV rendering (`_convert_statistics_to_csv`, lines 339-406)

`csv.writer` with the default dialect: fields joined by `,`, rows
terminated by `\r\n`, a field quoted (with inner quotes doubled) when it
contains a delimiter, quote or line-terminator character; `None` cell
values are written as empty strings, numbers via `str()`. -/

/-- Quote one CSV field as `csv.writer` does. -/
def csvField (s : String) : String :=
  if s.toList.any (fun c => c = ',' || c = '"' || c = '\r' || c = '\n') then
    "\"" ++ (s.toList.foldr
      (fun c acc => if c = '"' then '"' :: '"' :: acc else c :: acc) []).asString ++ "\""
  else s

/-- One CSV row. -/
def csvRow (fields : List String) : String :=
  String.intercalate "," (fields.map csvField) ++ "\r\n"

/-- Decimal digit grouping of `f"{amount:,.0f}"`: round to an integer
(half to even, as float formatting does, on the exact rational model)
and insert thousands separators. -/
def roundHalfEven (q : ℚ) : ℤ :=
  let f := ⌊q⌋
  let r := q - f
  if r < 1/2 then f else if 1/2 < r then f + 1 else if f % 2 = 0 then f else f + 1

/-- Insert a comma before every group of three digits, given the digit
characters most significant first. -/
def groupDigits (ds : List Char) : List Char :=
  if _h : ds.length ≤ 3 then ds
  else groupDigits (ds.take (ds.length - 3)) ++ ',' :: ds.drop (ds.length - 3)
  termination_by ds.length
  decreasing_by simp [List.length_take]; omega

/-- Rendering `f"{q:,.0f}"` for the nonnegative amounts of the high-amount list. -/
def formatComma (q : ℚ) : String :=
  let n := roundHalfEven q
  if n < 0 then ("-" ++ (groupDigits (natChars n.natAbs)).asString)
  else (groupDigits (natChars n.natAbs)).asString

/-- The dictionary produced by `_convert_statistics_to_csv` (the urgent
and high-amount tables are present only when their lists are nonempty). -/
structure CsvData where
  deadline_statistics : String
  amount_statistics : String
  urgent_deadlines : Option String
  high_amount_subsidies : Option String
  total_count : ℕ
  statistics_generated_at : String
  format : String
deriving DecidableEq

/-- The CSV conversion of a statistics snapshot. -/
def convertStatisticsToCsv (st : Stats) : CsvData :=
  { deadline_statistics :=
      csvRow ["期間", "件数"] ++
      csvRow ["受付中", toString st.by_deadline_period.accepting] ++
      csvRow ["今月締切", toString st.by_deadline_period.this_month] ++
      csvRow ["来月締切", toString st.by_deadline_period.next_month] ++
      csvRow ["再来月以降", toString st.by_deadline_period.after_next_month]
    amount_statistics :=
      csvRow ["金額規模", "件数"] ++
      csvRow ["100万円以下", toString st.by_amount_range.under_1m] ++
      csvRow ["1000万円以下", toString st.by_amount_range.under_10m] ++
      csvRow ["1億円以下", toString st.by_amount_range.under_100m] ++
      csvRow ["1億円超", toString st.by_amount_range.over_100m] ++
      csvRow ["金額未設定", toString st.by_amount_range.unspecified]
    urgent_deadlines :=
      if st.urgent_deadlines = [] then none
      else some (csvRow ["補助金ID", "補助金名", "残り日数"] ++
        String.join (st.urgent_deadlines.map (fun it =>
          csvRow [it.id.getD "", it.title.getD "", toString it.days_left])))
    high_amount_subsidies :=
      if st.high_amount_subsidies = [] then none
      else some (csvRow ["補助金ID", "補助金名", "最大金額"] ++
        String.join (st.high_amount_subsidies.map (fun it =>
          csvRow [it.id.getD "", it.title.getD "", formatComma it.max_amount])))
    total_count := st.total_count
    statistics_generated_at := st.statistics_generated_at
    format := "csv" }

/-- The value returned by `get_subsidy_overview`: the propagated search
error, the JSON snapshot, or its CSV conversion. -/
inductive OverviewResult
  | err (msg : String)
  | json (st : Stats)
  | csv (c : CsvData)
deriving DecidableEq

/-- Model of `get_subsidy_overview` given the internal search outcome. -/
def getSubsidyOverview (now : ℤ) (genAt : String)
    (searchResult : Except String (List Subsidy)) (output_format : String) : OverviewResult :=
  match searchResult with
  | .error e => .err e
  | .ok subs =>
    let st := computeStats now genAt subs
    if lowerStr output_format = "csv" then .csv (convertStatisticsToCsv st) else .json st

/-! ## Status derivation (`get_subsidy_detail`, lines 496-505)

The code initializes `status = "受付終了"`, enters the branch only when
`acceptance_end_datetime` is truthy, compares a parsed end datetime with
`datetime.now(end_dt.tzinfo)` (the same instant as `now`), and sets
`status = "受付中"` either when `end_dt >= now` or when parsing raises. -/

/-- The derived status of a detail record, given the current instant and
the raw `acceptance_end_datetime` field. -/
def detailStatus (now : ℤ) (endRaw : Option String) : String :=
  match endRaw with
  | none => "受付終了"
  | some raw =>
    if raw = "" then "受付終了"
    else
      match pyFromIso (replaceZ raw) with
      | none => "受付中"
      | some e => if now ≤ e then "受付中" else "受付終了"

/-! ## Filesystem and paths

`get_subsidy_detail` writes decoded attachments to
`FILES_DIR / subsidy_id / safe_file_name` and `get_file_content` reads
`FILES_DIR / subsidy_id / filename`, with `FILES_DIR` defaulting to
`tmp`.  Neither function normalizes or rejects separators or `..` in its
arguments; the operating system resolves them.  Paths are modelled as
the OS-resolved component lists (relative to the working directory), and
the filesystem as a map from such paths to file contents (directories
are implicit). -/

/-- A filesystem: resolved path components to byte content. -/
def FS : Type := List String → Option (List Byte)

/-- Write (create or overwrite) a file. -/
def fsWrite (fs : FS) (p : List String) (bs : List Byte) : FS :=
  fun q => if q = p then some bs else fs q

/-- Split a path string on `/` into its components. -/
def pathSplit (s : String) : List String :=
  ((splitCharAux '/' s.toList []).map List.asString).filter (fun x => x ≠ "")

/-- One step of OS path resolution (`.` skipped, `..` pops). -/
def normStep (acc : List String) (comp : String) : List String :=
  if comp = "." then acc
  else if comp = ".." then acc.dropLast
  else acc ++ [comp]

/-- OS resolution of a component list. -/
def normalizePath (l : List String) : List String := l.foldl normStep []

/-- The resolved target of `FILES_DIR / subsidy_id / filename` with the
default storage root `tmp`. -/
def filePath (subsidy_id filename : String) : List String :=
  normalizePath ("tmp" :: (pathSplit subsidy_id ++ pathSplit filename))

/-! ## Attachment persistence (`get_subsidy_detail`, lines 543-613)

Per item of a category list: derive a display name from the `name` key
(or the `file_name` key, or the generated fallback), skip items with a
falsy payload, validate/sanitize/decode, and record one success or
failure entry; a success writes the decoded bytes. -/

/-- One attachment dictionary from the detail response. -/
structure FileItem where
  name : Option String
  file_name : Option String
  data : Option String
  file_data : Option String
deriving DecidableEq

/-- Display name `file_data.get("name") or file_data.get("file_name", fallback)`. -/
def displayName (base : String) (idx : ℕ) (it : FileItem) : String :=
  match it.name with
  | some s => if s ≠ "" then s else (it.file_name.getD (fallbackName base idx))
  | none => it.file_name.getD (fallbackName base idx)

/-- Payload `file_data.get("data") or file_data.get("file_data", "")`. -/
def payloadOf (it : FileItem) : String :=
  match it.data with
  | some s => if s ≠ "" then s else (it.file_data.getD "")
  | none => it.file_data.getD ""

/-- Why an item's persistence failed (the reason interpolated into the
`保存失敗 (name): reason` message). -/
inductive FailReason
  | invalidBase64
  | decodeError
  | emptyDecode
deriving DecidableEq

/-- One entry of a per-category result list. -/
inductive SavedEntry
  | success (name : String) (original_name : String) (size : ℕ)
      (access_subsidy_id : String) (access_filename : String)
  | failure (name : String) (reason : FailReason)
deriving DecidableEq

/-- Processing of one attachment item. -/
def processItem (fs : FS) (subsidy_id base : String) (idx : ℕ) (it : FileItem) :
    FS × Option SavedEntry :=
  let file_name := displayName base idx it
  let payload := payloadOf it
  if payload = "" then (fs, none)
  else if pyStrip payload = "" then (fs, some (.failure file_name .invalidBase64))
  else
    let safe := sanitizeStr (fallbackName base idx) file_name
    match pyB64decode (pyStrip payload) with
    | none => (fs, some (.failure file_name .decodeError))
    | some bs =>
      if bs = [] then (fs, some (.failure file_name .emptyDecode))
      else
        (fsWrite fs (filePath subsidy_id safe) bs,
          some (.success safe file_name bs.length subsidy_id safe))

/-- Processing of a category list, threading the filesystem and
collecting the per-item entries in order. -/
def processCategory (fs : FS) (subsidy_id base : String) (idx : ℕ) :
    List FileItem → FS × List SavedEntry
  | [] => (fs, [])
  | it :: rest =>
    let (fs1, e) := processItem fs subsidy_id base idx it
    let (fs2, es) := processCategory fs1 subsidy_id base (idx + 1) rest
    (fs2, (match e with | some x => [x] | none => []) ++ es)

/-! ## File retrieval (`get_file_content`, lines 655-758)

The third-party converters and the UTF-8 text read are opaque
capabilities; each call's outcome is an oracle value (`none` models a
raised exception). -/

/-- Outcomes of the external steps for one `get_file_content` call. -/
structure ConvOracle where
  markitdown : Option String
  pdfpages : Option (List (Option String))
  utf8Read : Option String

/-- The extensions MarkItDown is tried on (`supported_extensions`). -/
def supportedExts : List String :=
  [".pdf", ".docx", ".doc", ".xlsx", ".xls", ".pptx", ".ppt",
   ".html", ".htm", ".xml", ".rtf", ".txt", ".csv", ".md", ".zip"]

/-- Model of `Path(filename).suffix`: the final dotted suffix of the last path
component (empty for no dot, a leading dot, or a trailing dot). -/
def extOf (filename : String) : String :=
  let nm := (((splitCharAux '/' filename.toList []).map List.asString).getLastD filename)
  let l := nm.toList
  let i := (l.reverse.takeWhile (fun c => c ≠ '.')).length
  if i < l.length ∧ 0 < l.length - 1 - i ∧ i ≠ 0 then ('.' :: (l.drop (l.length - i))).asString
  else if i < l.length ∧ 0 < l.length - 1 - i ∧ i = 0 then ""
  else ""

/-- A restricted model of `mimetypes.guess_type`, covering the extensions
exercised here; unknown extensions give the code's
`application/octet-stream` default. -/
def guessMime (filename : String) : String :=
  let e := lowerStr (extOf filename)
  if e = ".pdf" then "application/pdf"
  else if e = ".txt" then "text/plain"
  else if e = ".c" then "text/plain"
  else if e = ".h" then "text/plain"
  else if e = ".csv" then "text/csv"
  else if e = ".html" then "text/html"
  else if e = ".htm" then "text/html"
  else if e = ".xml" then "text/xml"
  else if e = ".zip" then "application/zip"
  else if e = ".doc" then "application/msword"
  else if e = ".xls" then "application/vnd.ms-excel"
  else if e = ".ppt" then "application/vnd.ms-powerpoint"
  else "application/octet-stream"

/-- The pdfplumber fallback text: pages with truthy extracted text get a
page heading and are joined with a separator. -/
def pdfMarkdown (pages : List (Option String)) : String :=
  String.intercalate "\n\n---\n\n"
    (((pages.enumFrom 1).filterMap (fun p =>
      match p.2 with
      | some t => if t ≠ "" then some ("## ページ " ++ toString p.1 ++ "\n\n" ++ t) else none
      | none => none)))

/-- The `data:` URI preview of the final fallback, truncated past 100
base64 characters. -/
def dataUri (mime b64 : String) : String :=
  if 100 < b64.toList.length then
    "data:" ++ mime ++ ";base64," ++ (b64.toList.take 100).asString ++ "..."
  else "data:" ++ mime ++ ";base64," ++ b64

/-- The value returned by `get_file_content`. -/
inductive FileResult
  | markdown (filename content_markdown mime_type : String) (size_bytes : ℕ)
      (extraction_method : String)
  | rawBase64 (filename content_base64 mime_type : String) (size_bytes : ℕ) (data_uri : String)
  | err (msg : String)
deriving DecidableEq

/-- Model of `get_file_content`: resolve the target path literally, then run the
extraction fallback chain exactly as the code sequences it (the
`return_format = "base64"` reassignments included). -/
def getFileContent (o : ConvOracle) (fs : FS) (subsidy_id filename return_format : String) :
    FileResult :=
  match fs (filePath subsidy_id filename) with
  | none => .err ("ファイルが見つかりません: " ++ subsidy_id ++ "/" ++ filename)
  | some content =>
    let mime := guessMime filename
    let size := content.length
    let ext := lowerStr (extOf filename)
    let inConvBranch := return_format = "markdown" ∧ ext ∈ supportedExts
    let step1 : Option FileResult :=
      if inConvBranch then
        match o.markitdown with
        | some t =>
          if pyStrip t ≠ "" then
            some (.markdown filename t mime size ("markitdown_" ++ (ext.toList.drop 1).asString))
          else none
        | none =>
          if mime = "application/pdf" then
            match o.pdfpages with
            | some pages =>
              let md := pdfMarkdown pages
              if pyStrip md ≠ "" then some (.markdown filename md mime size "pdfplumber_markdown")
              else none
            | none => none
          else none
      else none
    match step1 with
    | some r => r
    | none =>
      let fmt := if inConvBranch then "base64" else return_format
      let b64 := pyB64encode content
      if fmt = "markdown" ∧ startsWithStr mime "text/" then
        match o.utf8Read with
        | some t => .markdown filename t mime size "text_file"
        | none => .rawBase64 filename b64 mime size (dataUri mime b64)
      else .rawBase64 filename b64 mime size (dataUri mime b64)

/-! ## Claim theorems -/

/-! Helper invariants for the classification loop. -/

theorem deadlineStep_accepting (now : ℤ) (st : Stats) (s : Subsidy) :
    (deadlineStep now st s).by_deadline_period.accepting = st.by_deadline_period.accepting := by
  simp only [deadlineStep]
  repeat' split
  all_goals rfl

theorem amountStep_deadline (st : Stats) (s : Subsidy) :
    (amountStep st s).by_deadline_period = st.by_deadline_period := by
  simp only [amountStep]
  repeat' split
  all_goals rfl

theorem amountStep_urgent (st : Stats) (s : Subsidy) :
    (amountStep st s).urgent_deadlines = st.urgent_deadlines := by
  simp only [amountStep]
  repeat' split
  all_goals rfl

theorem deadlineStep_amount (now : ℤ) (st : Stats) (s : Subsidy) :
    (deadlineStep now st s).by_amount_range = st.by_amount_range := by
  simp only [deadlineStep]
  repeat' split
  all_goals rfl

theorem overviewStep_accepting (now : ℤ) (st : Stats) (s : Subsidy) :
    (overviewStep now st s).by_deadline_period.accepting
      = st.by_deadline_period.accepting := by
  unfold overviewStep
  by_cases hp : pastDeadline now s = true
  · simp only [hp, if_true, ite_true]
    exact deadlineStep_accepting now st s
  · simp only [eq_false_of_ne_true hp, Bool.false_eq_true, if_false, ite_false]
    rw [amountStep_deadline, deadlineStep_accepting]

theorem foldl_accepting (now : ℤ) (subs : List Subsidy) (st : Stats) :
    (subs.foldl (overviewStep now) st).by_deadline_period.accepting
      = st.by_deadline_period.accepting := by
  induction subs generalizing st with
  | nil => rfl
  | cons s rest ih =>
    rw [List.foldl_cons, ih, overviewStep_accepting]

/-- C7: for every statistics input, the `accepting` key of the deadline
histogram in the snapshot computed by `get_subsidy_overview` equals 0:
the classification loop routes records only into `this_month`,
`next_month` and `after_next_month` or excludes them, and never
increments `accepting`. -/
theorem C7_accepting_always_zero (now : ℤ) (genAt : String) (subs : List Subsidy) :
    (computeStats now genAt subs).by_deadline_period.accepting = 0 := by
  unfold computeStats
  rw [foldl_accepting]
  rfl

/-- Total count across the five amount buckets. -/
def amountTotal (b : AmountBuckets) : ℕ :=
  b.under_1m + b.under_10m + b.under_100m + b.over_100m + b.unspecified

/-- C4 counterexample: a record whose `subsidy_max_limit` is the JSON
number 0 is present and parseable (`float(0)` is `0.0`, which lies in the
lowest bucket), yet the code's truthiness guard `if max_limit:` routes it
to `unspecified` instead of `under_1m`, refuting the claim that a
present, parseable numeric value always increments its numeric bucket. -/
theorem C4_counterexample_zero_amount :
    (computeStats 0 "" [⟨none, none, none, some (.num 0)⟩]).by_amount_range
      = ⟨0, 0, 0, 0, 1⟩ ∧
    jFloat (JVal.num 0) = some 0 := by decide

/-- Bucketing behaviour of the amount pass in isolation (it runs only
for records that did not take the loop's `continue`): exactly one bucket
is incremented; absent, falsy and unparseable values go to
`unspecified`; truthy parseable values go to their numeric bucket. -/
theorem amountStep_bucketing (st : Stats) (s : Subsidy) :
    (amountTotal (amountStep st s).by_amount_range = amountTotal st.by_amount_range + 1) ∧
    (s.subsidy_max_limit = none →
      (amountStep st s).by_amount_range
        = { st.by_amount_range with unspecified := st.by_amount_range.unspecified + 1 }) ∧
    (∀ v, s.subsidy_max_limit = some v → jTruthy v = false →
      (amountStep st s).by_amount_range
        = { st.by_amount_range with unspecified := st.by_amount_range.unspecified + 1 }) ∧
    (∀ v, s.subsidy_max_limit = some v → jTruthy v = true → jFloat v = none →
      (amountStep st s).by_amount_range
        = { st.by_amount_range with unspecified := st.by_amount_range.unspecified + 1 }) ∧
    (∀ v a, s.subsidy_max_limit = some v → jTruthy v = true → jFloat v = some a →
      ((a ≤ 1000000 →
        (amountStep st s).by_amount_range
          = { st.by_amount_range with under_1m := st.by_amount_range.under_1m + 1 }) ∧
      (1000000 < a → a ≤ 10000000 →
        (amountStep st s).by_amount_range
          = { st.by_amount_range with under_10m := st.by_amount_range.under_10m + 1 }) ∧
      (10000000 < a → a ≤ 100000000 →
        (amountStep st s).by_amount_range
          = { st.by_amount_range with under_100m := st.by_amount_range.under_100m + 1 }) ∧
      (100000000 < a →
        (amountStep st s).by_amount_range
          = { st.by_amount_range with over_100m := st.by_amount_range.over_100m + 1 }))) := by
  refine ⟨?_, ?_, ?_, ?_, ?_⟩
  · simp only [amountStep, amountTotal]
    repeat' split
    all_goals dsimp only
    all_goals omega
  · intro h
    unfold amountStep
    rw [h]
  · intro v hv ht
    unfold amountStep
    rw [hv]
    simp [ht]
  · intro v hv ht hf
    unfold amountStep
    rw [hv]
    simp [ht, hf]
  · intro v a hv ht hf
    simp only [amountStep, hv, ht, if_true, ite_true, hf]
    refine ⟨?_, ?_, ?_, ?_⟩ <;>
      [skip; intro h2; intro h2; skip] <;> intro h1 <;>
      all_goals repeat (first | rfl | split | dsimp only | (exfalso; linarith))

/-- C4 amended: per record of the statistics input, at most one amount
bucket is incremented.  A record whose parseable end timestamp lies in
the past takes the loop's `continue` and increments no amount bucket at
all; every other record increments exactly one: absent, Python-falsy
(number 0 or empty string) and unparseable `subsidy_max_limit` values
increment `unspecified`, and any other (truthy, parseable) value
increments exactly the numeric bucket containing it. -/
theorem C4_amended_per_record_bucketing (now : ℤ) (st : Stats) (s : Subsidy) :
    (pastDeadline now s = true →
      (overviewStep now st s).by_amount_range = st.by_amount_range) ∧
    (pastDeadline now s = false →
      (amountTotal (overviewStep now st s).by_amount_range
          = amountTotal st.by_amount_range + 1) ∧
      (s.subsidy_max_limit = none →
        (overviewStep now st s).by_amount_range
          = { st.by_amount_range with unspecified := st.by_amount_range.unspecified + 1 }) ∧
      (∀ v, s.subsidy_max_limit = some v → jTruthy v = false →
        (overviewStep now st s).by_amount_range
          = { st.by_amount_range with unspecified := st.by_amount_range.unspecified + 1 }) ∧
      (∀ v, s.subsidy_max_limit = some v → jTruthy v = true → jFloat v = none →
        (overviewStep now st s).by_amount_range
          = { st.by_amount_range with unspecified := st.by_amount_range.unspecified + 1 }) ∧
      (∀ v a, s.subsidy_max_limit = some v → jTruthy v = true → jFloat v = some a →
        ((a ≤ 1000000 →
          (overviewStep now st s).by_amount_range
            = { st.by_amount_range with under_1m := st.by_amount_range.under_1m + 1 }) ∧
        (1000000 < a → a ≤ 10000000 →
          (overviewStep now st s).by_amount_range
            = { st.by_amount_range with under_10m := st.by_amount_range.under_10m + 1 }) ∧
        (10000000 < a → a ≤ 100000000 →
          (overviewStep now st s).by_amount_range
            = { st.by_amount_range with under_100m := st.by_amount_range.under_100m + 1 }) ∧
        (100000000 < a →
          (overviewStep now st s).by_amount_range
            = { st.by_amount_range with over_100m := st.by_amount_range.over_100m + 1 })))) := by
  constructor
  · intro hp
    unfold overviewStep
    simp only [hp, if_true, ite_true]
    exact deadlineStep_amount now st s
  · intro hp
    have hov : overviewStep now st s = amountStep (deadlineStep now st s) s := by
      unfold overviewStep
      simp only [hp, Bool.false_eq_true, if_false, ite_false]
    rw [hov]
    have h := amountStep_bucketing (deadlineStep now st s) s
    rw [deadlineStep_amount now st s] at h
    exact h

/-- C4 amended, witness: a record with no end timestamp and the string
amount `"5000000"` goes to `under_10m`; a record with a past deadline
and the same amount increments no amount bucket (the `continue`). -/
theorem C4_amended_per_record_bucketing_witness :
    (overviewStep 0 (initStats 1 "")
        ⟨none, none, none, some (.str "5000000")⟩).by_amount_range
      = { (initStats 1 "").by_amount_range with under_10m := 1 } ∧
    (overviewStep 1300000 (initStats 1 "")
        ⟨none, none, some "1970-01-01T00:00:00Z", some (.str "5000000")⟩).by_amount_range
      = (initStats 1 "").by_amount_range := by
  constructor
  · have h := (C4_amended_per_record_bucketing 0 (initStats 1 "")
      ⟨none, none, none, some (.str "5000000")⟩).2 (by decide)
    exact (h.2.2.2.2 (JVal.str "5000000") (mkRat 5000000 1) rfl (by decide)
      (by decide)).2.1 (by decide) (by decide)
  · exact (C4_amended_per_record_bucketing 1300000 (initStats 1 "")
      ⟨none, none, some "1970-01-01T00:00:00Z", some (.str "5000000")⟩).1 (by decide)

/-- Python `timedelta.days` is floor division of the second difference by
86400. -/
theorem fdiv_86400_eq_floor (k : ℤ) : Int.fdiv k 86400 = ⌊(k : ℚ) / 86400⌋ := by
  rw [show ((86400 : ℚ)) = ((86400 : ℕ) : ℚ) by norm_num,
    Rat.floor_intCast_div_natCast k 86400]
  exact Int.fdiv_eq_ediv k (by norm_num)

/-- C5: per record of the statistics input with a truthy, parseable
offset-aware end timestamp, `days_left` is the floor of
`(end - now) / 86400` whole days; a negative value leaves the snapshot
unchanged (no deadline bucket, no urgent entry); a nonnegative value
increments exactly one of `this_month` (≤30), `next_month` (≤60),
`after_next_month` (>60); and the record is appended to the urgent list
if and only if `0 ≤ days_left ≤ 14`.  The amount pass never touches the
urgent list. -/
theorem C5_days_buckets_urgent (now : ℤ) (st : Stats) (s : Subsidy) (raw : String) (e d : ℤ)
    (hr : s.acceptance_end_datetime = some raw) (hne : raw ≠ "")
    (hp : pyFromIso (replaceZ raw) = some e) (hd : d = Int.fdiv (e - now) 86400) :
    d = ⌊((e - now : ℤ) : ℚ) / 86400⌋ ∧
    (d < 0 → deadlineStep now st s = st) ∧
    (0 ≤ d → d ≤ 30 → (deadlineStep now st s).by_deadline_period =
      { st.by_deadline_period with this_month := st.by_deadline_period.this_month + 1 }) ∧
    (30 < d → d ≤ 60 → (deadlineStep now st s).by_deadline_period =
      { st.by_deadline_period with next_month := st.by_deadline_period.next_month + 1 }) ∧
    (60 < d → (deadlineStep now st s).by_deadline_period =
      { st.by_deadline_period with
        after_next_month := st.by_deadline_period.after_next_month + 1 }) ∧
    (0 ≤ d → d ≤ 14 → (deadlineStep now st s).urgent_deadlines =
      st.urgent_deadlines ++ [⟨s.id, s.title, d⟩]) ∧
    ((d < 0 ∨ 14 < d) → (deadlineStep now st s).urgent_deadlines = st.urgent_deadlines) ∧
    (overviewStep now st s).urgent_deadlines = (deadlineStep now st s).urgent_deadlines := by
  have hstep : deadlineStep now st s =
      (if d < 0 then st
       else
        let st1 :=
          if d ≤ 30 then
            { st with by_deadline_period :=
                { st.by_deadline_period with
                  this_month := st.by_deadline_period.this_month + 1 } }
          else if d ≤ 60 then
            { st with by_deadline_period :=
                { st.by_deadline_period with
                  next_month := st.by_deadline_period.next_month + 1 } }
          else
            { st with by_deadline_period :=
                { st.by_deadline_period with
                  after_next_month := st.by_deadline_period.after_next_month + 1 } }
        if 0 ≤ d ∧ d ≤ 14 then
          { st1 with urgent_deadlines := st1.urgent_deadlines ++ [⟨s.id, s.title, d⟩] }
        else st1) := by
    simp only [deadlineStep, hr, hne, if_false, ite_false, hp, hd]
  refine ⟨by rw [hd]; exact fdiv_86400_eq_floor (e - now), ?_, ?_, ?_, ?_, ?_, ?_, ?_⟩
  · intro h
    rw [hstep, if_pos h]
  · intro h0 h30
    rw [hstep, if_neg (by omega)]
    repeat (first | rfl | split | dsimp only | (exfalso; omega))
  · intro h30 h60
    rw [hstep, if_neg (by omega)]
    repeat (first | rfl | split | dsimp only | (exfalso; omega))
  · intro h60
    rw [hstep, if_neg (by omega)]
    repeat (first | rfl | split | dsimp only | (exfalso; omega))
  · intro h0 h14
    rw [hstep, if_neg (by omega)]
    repeat (first | rfl | split | dsimp only | (exfalso; omega))
  · intro h
    rcases h with h | h
    · rw [hstep, if_pos h]
    · rw [hstep, if_neg (by omega)]
      repeat (first | rfl | split | dsimp only | (exfalso; omega))
  · unfold overviewStep
    by_cases hpast : pastDeadline now s = true
    · simp only [hpast, if_true, ite_true]
    · simp only [eq_false_of_ne_true hpast, Bool.false_eq_true, if_false, ite_false]
      exact amountStep_urgent (deadlineStep now st s) s

/-- C5 witness: a record due in exactly 14 days lands in `this_month`
and the urgent list. -/
theorem C5_days_buckets_urgent_witness :
    (deadlineStep 0 (initStats 1 "G")
        ⟨some "X", some "T", some "1970-01-15T00:00:00Z", none⟩).by_deadline_period
      = ⟨0, 1, 0, 0⟩ ∧
    (deadlineStep 0 (initStats 1 "G")
        ⟨some "X", some "T", some "1970-01-15T00:00:00Z", none⟩).urgent_deadlines
      = [⟨some "X", some "T", 14⟩] := by
  have h := C5_days_buckets_urgent 0 (initStats 1 "G")
    ⟨some "X", some "T", some "1970-01-15T00:00:00Z", none⟩
    "1970-01-15T00:00:00Z" 1209600 14 rfl (by decide) (by decide) (by decide)
  exact ⟨h.2.2.1 (by decide) (by decide), h.2.2.2.2.2.1 (by decide) (by decide)⟩

/-- C1 counterexample: the claim says a detail record with no
`acceptance_end_datetime` field yields status "open" (受付中), but the
code initializes `status = "受付終了"` and its `if end_raw:` guard skips
the whole derivation for an absent (or empty) field, so the status stays
"closed". -/
theorem C1_counterexample_absent_is_closed :
    detailStatus 0 none = "受付終了" ∧ detailStatus 0 none ≠ "受付中" := by decide

/-- C1 amended: the status derivation of `get_subsidy_detail` is
fail-open only for a present-but-unparseable timestamp: an absent or
empty field yields "受付終了" (closed); a truthy unparseable field
yields "受付中" (open); a parseable field yields "受付中" exactly when
the end instant is at or after now, and "受付終了" when it is strictly
before. -/
theorem C1_amended_status (now : ℤ) (r : Option String) :
    ((r = none ∨ r = some "") → detailStatus now r = "受付終了") ∧
    (∀ raw, r = some raw → raw ≠ "" → pyFromIso (replaceZ raw) = none →
      detailStatus now r = "受付中") ∧
    (∀ raw e, r = some raw → raw ≠ "" → pyFromIso (replaceZ raw) = some e →
      ((now ≤ e → detailStatus now r = "受付中") ∧
       (e < now → detailStatus now r = "受付終了"))) := by
  refine ⟨?_, ?_, ?_⟩
  · rintro (rfl | rfl) <;> rfl
  · rintro raw rfl hne hp
    simp only [detailStatus, hne, if_false, ite_false, hp]
  · rintro raw e rfl hne hp
    constructor
    · intro hle
      simp only [detailStatus, hne, if_false, ite_false, hp, hle, if_true, ite_true]
    · intro hlt
      simp only [detailStatus, hne, if_false, ite_false, hp, not_le.mpr hlt, ite_false]

/-- C1 amended, witness: a future end timestamp is "open", a past one is
"closed", an absent field is "closed". -/
theorem C1_amended_status_witness :
    detailStatus 0 (some "1970-01-02T00:00:00Z") = "受付中" ∧
    detailStatus 172801 (some "1970-01-02T00:00:00Z") = "受付終了" ∧
    detailStatus 0 none = "受付終了" := by
  refine ⟨?_, ?_, ?_⟩
  · exact ((C1_amended_status 0 (some "1970-01-02T00:00:00Z")).2.2
      "1970-01-02T00:00:00Z" 86400 rfl (by decide) (by decide)).1 (by decide)
  · exact ((C1_amended_status 172801 (some "1970-01-02T00:00:00Z")).2.2
      "1970-01-02T00:00:00Z" 86400 rfl (by decide) (by decide)).2 (by decide)
  · exact (C1_amended_status 0 none).1 (Or.inl rfl)

/-! Helper lemmas for attachment processing. -/

theorem pyStrip_ne_of_decode {p : String} {bs : List Byte}
    (h1 : pyB64decode (pyStrip p) = some bs) (hbs : bs ≠ []) : pyStrip p ≠ "" := by
  intro h
  rw [h] at h1
  have : some ([] : List Byte) = some bs := h1
  exact hbs (Option.some.inj this).symm

theorem payload_ne_of_decode {p : String} {bs : List Byte}
    (h1 : pyB64decode (pyStrip p) = some bs) (hbs : bs ≠ []) : p ≠ "" :=
  fun h => pyStrip_ne_of_decode h1 hbs (by rw [h]; rfl)

theorem processItem_success (fs : FS) (sid base : String) (idx : ℕ) (it : FileItem)
    (bs : List Byte) (h1 : pyB64decode (pyStrip (payloadOf it)) = some bs) (hbs : bs ≠ []) :
    processItem fs sid base idx it =
      (fsWrite fs
        (filePath sid (sanitizeStr (fallbackName base idx) (displayName base idx it))) bs,
       some (.success (sanitizeStr (fallbackName base idx) (displayName base idx it))
        (displayName base idx it) bs.length sid
        (sanitizeStr (fallbackName base idx) (displayName base idx it)))) := by
  simp only [processItem, payload_ne_of_decode h1 hbs, pyStrip_ne_of_decode h1 hbs,
    if_false, ite_false, h1, hbs]

theorem processItem_skip (fs : FS) (sid base : String) (idx : ℕ) (it : FileItem)
    (h : payloadOf it = "") : processItem fs sid base idx it = (fs, none) := by
  simp only [processItem, h, ite_true]

/-- C2 counterexample: a category list with one item carrying a valid
payload and one item carrying an empty payload produces exactly one
success entry and no failure entry — the empty-payload item is skipped
silently by the `if file_base64:` guard, so no explicit failure entry
with its name and a reason appears. -/
theorem C2_counterexample_empty_payload_silent :
    (processCategory (fun _ => none) "S1" "申請ガイドライン" 0
      [⟨some "a.pdf", none, some "aGVsbG8=", none⟩, ⟨some "b.pdf", none, some "", none⟩]).2
      = [.success "a.pdf" "a.pdf" 5 "S1" "a.pdf"] := by decide

/-- C2 amended: a category list holding one item whose payload decodes
to nonempty bytes and one item with an empty payload yields exactly one
success entry for the former and no entry at all for the latter
(silently skipped), in input order — in either order of the two
items. -/
theorem C2_amended_one_success_no_failure (fs : FS) (sid base : String) (idx : ℕ)
    (i1 i2 : FileItem) (bs : List Byte)
    (h1 : pyB64decode (pyStrip (payloadOf i1)) = some bs) (hbs : bs ≠ [])
    (h2 : payloadOf i2 = "") :
    (processCategory fs sid base idx [i1, i2]).2
      = [.success (sanitizeStr (fallbackName base idx) (displayName base idx i1))
          (displayName base idx i1) bs.length sid
          (sanitizeStr (fallbackName base idx) (displayName base idx i1))] ∧
    (processCategory fs sid base idx [i2, i1]).2
      = [.success (sanitizeStr (fallbackName base (idx + 1)) (displayName base (idx + 1) i1))
          (displayName base (idx + 1) i1) bs.length sid
          (sanitizeStr (fallbackName base (idx + 1)) (displayName base (idx + 1) i1))] := by
  constructor
  · simp only [processCategory, processItem_success fs sid base idx i1 bs h1 hbs,
      processItem_skip _ sid base (idx + 1) i2 h2]
    rfl
  · simp only [processCategory, processItem_skip fs sid base idx i2 h2,
      processItem_success fs sid base (idx + 1) i1 bs h1 hbs]
    rfl

/-- C2 amended, witness: concrete two-item list, both orders. -/
theorem C2_amended_one_success_no_failure_witness :
    (processCategory (fun _ => none) "S1" "補助金概要" 0
      [⟨some "a.pdf", none, some "aGVsbG8=", none⟩, ⟨some "b.pdf", none, some "", none⟩]).2
      = [.success "a.pdf" "a.pdf" 5 "S1" "a.pdf"] ∧
    (processCategory (fun _ => none) "S1" "補助金概要" 0
      [⟨some "b.pdf", none, some "", none⟩, ⟨some "a.pdf", none, some "aGVsbG8=", none⟩]).2
      = [.success "a.pdf" "a.pdf" 5 "S1" "a.pdf"] := by
  have h := C2_amended_one_success_no_failure (fun _ => none) "S1" "補助金概要" 0
    ⟨some "a.pdf", none, some "aGVsbG8=", none⟩ ⟨some "b.pdf", none, some "", none⟩
    [⟨104, by omega⟩, ⟨101, by omega⟩, ⟨108, by omega⟩, ⟨108, by omega⟩, ⟨111, by omega⟩]
    (by decide) (by decide) (by decide)
  exact ⟨h.1.trans (by decide), h.2.trans (by decide)⟩

/-- C6 counterexample: on an empty result set the CSV deadline table is
not "headers only with zero data rows": it always carries one data row
per bucket (with zero counts), and the urgent/high-amount tables are
omitted entirely rather than rendered as headers. -/
theorem C6_counterexample_bucket_rows_present :
    (convertStatisticsToCsv (computeStats 0 "T" [])).deadline_statistics
      = "期間,件数\r\n受付中,0\r\n今月締切,0\r\n来月締切,0\r\n再来月以降,0\r\n" ∧
    (convertStatisticsToCsv (computeStats 0 "T" [])).deadline_statistics
      ≠ "期間,件数\r\n" := by decide

/-- C6 amended: a statistics request with `output_format="csv"` on an
empty result set is not an error: it returns the CSV dictionary with
`total_count` 0, histogram tables consisting of the header plus one
zero-count row per bucket, and no urgent or high-amount tables (their
keys are omitted for empty lists). -/
theorem C6_amended_csv_empty (now : ℤ) (genAt : String) :
    getSubsidyOverview now genAt (.ok []) "csv" =
      .csv
        { deadline_statistics :=
            "期間,件数\r\n受付中,0\r\n今月締切,0\r\n来月締切,0\r\n再来月以降,0\r\n"
          amount_statistics :=
            "金額規模,件数\r\n100万円以下,0\r\n1000万円以下,0\r\n1億円以下,0\r\n1億円超,0\r\n金額未設定,0\r\n"
          urgent_deadlines := none
          high_amount_subsidies := none
          total_count := 0
          statistics_generated_at := genAt
          format := "csv" } := by
  have h1 : lowerStr "csv" = "csv" := rfl
  show (if lowerStr "csv" = "csv"
    then OverviewResult.csv (convertStatisticsToCsv (computeStats now genAt []))
    else OverviewResult.json (computeStats now genAt [])) = _
  rw [if_pos h1]
  have h2 : computeStats now genAt [] = initStats 0 genAt := rfl
  rw [h2]
  unfold convertStatisticsToCsv initStats
  dsimp only
  congr 1

/-- C3 counterexample: a stored `.txt` file (declared MIME `text/plain`)
whose general conversion raises is returned as raw base64 even though a
direct UTF-8 text read would succeed (oracle `some "hello"`): the
exception path reassigns `return_format = "base64"`, so the plain read
guarded by `return_format == "markdown"` is skipped, refuting the
claimed conversion-failure → text-read → raw-bytes order for textual
files. -/
theorem C3_counterexample_text_read_unreachable :
    getFileContent ⟨none, none, some "hello"⟩
      (fun p => if p = ["tmp", "S1", "a.txt"] then some [(104 : Byte), (105 : Byte)] else none)
      "S1" "a.txt" "markdown"
      = .rawBase64 "a.txt" "aGk=" "text/plain" 2 "data:text/plain;base64,aGk=" := by decide

/-- C3 amended: in extracted-text mode the chain is: general conversion
for supported extensions (returning its text when nonblank); on a raised
conversion only, and only for PDFs, the page-by-page fallback; every
other conversion failure — blank output, or a raised conversion on a
non-PDF — falls directly to raw base64, never attempting the direct
UTF-8 text read (whatever the MIME type and the read's outcome); the
direct text read happens exactly when the extension is outside the
supported set and the declared MIME type is textual. -/
theorem C3_amended_fallback_chain (o : ConvOracle) (fs : FS) (sid fn : String)
    (content : List Byte) (hfs : fs (filePath sid fn) = some content) :
    (∀ t, lowerStr (extOf fn) ∈ supportedExts → o.markitdown = some t → pyStrip t ≠ "" →
      getFileContent o fs sid fn "markdown"
        = .markdown fn t (guessMime fn) content.length
            ("markitdown_" ++ ((lowerStr (extOf fn)).toList.drop 1).asString)) ∧
    (∀ pages, lowerStr (extOf fn) ∈ supportedExts → o.markitdown = none →
      guessMime fn = "application/pdf" → o.pdfpages = some pages →
      pyStrip (pdfMarkdown pages) ≠ "" →
      getFileContent o fs sid fn "markdown"
        = .markdown fn (pdfMarkdown pages) (guessMime fn) content.length
            "pdfplumber_markdown") ∧
    (lowerStr (extOf fn) ∈ supportedExts →
      ((∃ t, o.markitdown = some t ∧ pyStrip t = "") ∨
       (o.markitdown = none ∧ (guessMime fn ≠ "application/pdf" ∨ o.pdfpages = none ∨
         ∃ pages, o.pdfpages = some pages ∧ pyStrip (pdfMarkdown pages) = ""))) →
      getFileContent o fs sid fn "markdown"
        = .rawBase64 fn (pyB64encode content) (guessMime fn) content.length
            (dataUri (guessMime fn) (pyB64encode content))) ∧
    (∀ t, lowerStr (extOf fn) ∉ supportedExts → startsWithStr (guessMime fn) "text/" = true →
      o.utf8Read = some t →
      getFileContent o fs sid fn "markdown"
        = .markdown fn t (guessMime fn) content.length "text_file") ∧
    (lowerStr (extOf fn) ∉ supportedExts →
      (startsWithStr (guessMime fn) "text/" = false ∨ o.utf8Read = none) →
      getFileContent o fs sid fn "markdown"
        = .rawBase64 fn (pyB64encode content) (guessMime fn) content.length
            (dataUri (guessMime fn) (pyB64encode content))) := by
  refine ⟨?_, ?_, ?_, ?_, ?_⟩
  · intro t hext hmk hnb
    simp only [getFileContent, hfs, hmk, hnb, hext, and_true, true_and, if_true, ite_true,
      if_pos rfl]
    simp [hnb]
  · intro pages hext hmk hpdf hpg hnb
    simp only [getFileContent, hfs, hmk, hpdf, hpg, hext, and_true, true_and, if_true,
      ite_true, if_pos rfl]
    simp [hnb]
  · intro hext hfail
    rcases hfail with ⟨t, hmk, hblank⟩ | ⟨hmk, hrest⟩
    · simp only [getFileContent, hfs, hmk, hblank, hext, and_true, true_and]
      simp
    · rcases hrest with hpdf | hpg | ⟨pages, hpg, hblank⟩
      · simp only [getFileContent, hfs, hmk, hext, and_true, true_and, hpdf, if_neg hpdf]
        simp [hpdf]
      · simp only [getFileContent, hfs, hmk, hext, and_true, true_and, hpg]
        by_cases hpdf : guessMime fn = "application/pdf" <;> simp [hpdf, hpg]
      · simp only [getFileContent, hfs, hmk, hext, and_true, true_and, hpg, hblank]
        by_cases hpdf : guessMime fn = "application/pdf" <;> simp [hpdf, hpg, hblank]
  · intro t hext htext hread
    simp only [getFileContent, hfs, hext, htext, hread]
    simp [hext, htext, hread]
  · intro hext hfail
    rcases hfail with htext | hread
    · simp only [getFileContent, hfs]
      simp [hext, htext]
    · simp only [getFileContent, hfs]
      simp [hext, hread]

/-- C3 amended, witness: for a `.c` file (textual MIME, unsupported
extension) the direct UTF-8 read is used; for a `.txt` file whose
conversion raises, the result is raw base64 despite the textual MIME. -/
theorem C3_amended_fallback_chain_witness :
    getFileContent ⟨none, none, some "T"⟩
      (fun p => if p = ["tmp", "S1", "a.c"] then some [(104 : Byte)] else none)
      "S1" "a.c" "markdown"
      = .markdown "a.c" "T" "text/plain" 1 "text_file" ∧
    getFileContent ⟨none, none, some "T"⟩
      (fun p => if p = ["tmp", "S1", "a.txt"] then some [(104 : Byte)] else none)
      "S1" "a.txt" "markdown"
      = .rawBase64 "a.txt" "aA==" "text/plain" 1 "data:text/plain;base64,aA==" := by
  constructor
  · exact (C3_amended_fallback_chain ⟨none, none, some "T"⟩
      (fun p => if p = ["tmp", "S1", "a.c"] then some [(104 : Byte)] else none)
      "S1" "a.c" [(104 : Byte)] (by decide)).2.2.2.1 "T" (by decide) (by decide) rfl
  · have h := (C3_amended_fallback_chain ⟨none, none, some "T"⟩
      (fun p => if p = ["tmp", "S1", "a.txt"] then some [(104 : Byte)] else none)
      "S1" "a.txt" [(104 : Byte)] (by decide)).2.2.1 (by decide)
      (Or.inr ⟨rfl, Or.inl (by decide)⟩)
    exact h.trans (by decide)

/-- C8: round-trip — when `get_subsidy_detail` decodes a valid base64
payload to nonempty bytes and persists them under the sanitized name, a
subsequent `get_file_content` call for that record id and sanitized
filename in base64 mode returns exactly the original decoded bytes
(re-encoded; decoding the returned base64 gives back the same byte
list), with `size_bytes` equal to the decoded length. -/
theorem C8_roundtrip_write_read (o : ConvOracle) (fs : FS) (sid base : String) (idx : ℕ)
    (it : FileItem) (bs : List Byte)
    (hdec : pyB64decode (pyStrip (payloadOf it)) = some bs) (hbs : bs ≠ []) :
    (processItem fs sid base idx it).2
      = some (.success (sanitizeStr (fallbackName base idx) (displayName base idx it))
          (displayName base idx it) bs.length sid
          (sanitizeStr (fallbackName base idx) (displayName base idx it))) ∧
    getFileContent o (processItem fs sid base idx it).1 sid
        (sanitizeStr (fallbackName base idx) (displayName base idx it)) "base64"
      = .rawBase64 (sanitizeStr (fallbackName base idx) (displayName base idx it))
          (pyB64encode bs)
          (guessMime (sanitizeStr (fallbackName base idx) (displayName base idx it)))
          bs.length
          (dataUri (guessMime (sanitizeStr (fallbackName base idx) (displayName base idx it)))
            (pyB64encode bs)) ∧
    pyB64decode (pyB64encode bs) = some bs := by
  have hpi := processItem_success fs sid base idx it bs hdec hbs
  refine ⟨by rw [hpi], ?_, pyB64decode_encode bs⟩
  rw [hpi]
  dsimp only
  have hlook : fsWrite fs
      (filePath sid (sanitizeStr (fallbackName base idx) (displayName base idx it))) bs
      (filePath sid (sanitizeStr (fallbackName base idx) (displayName base idx it)))
      = some bs := if_pos rfl
  simp [getFileContent, hlook]

/-- C8 witness: concrete payload `aGVsbG8=` round-trips to the bytes of
`hello` and back. -/
theorem C8_roundtrip_write_read_witness :
    getFileContent ⟨none, none, none⟩
        (processItem (fun _ => none) "S1" "申請書" 0
          ⟨some "a.bin", none, some "aGVsbG8=", none⟩).1 "S1" "a.bin" "base64"
      = .rawBase64 "a.bin" "aGVsbG8=" "application/octet-stream" 5
          "data:application/octet-stream;base64,aGVsbG8=" ∧
    pyB64decode "aGVsbG8="
      = some [⟨104, by omega⟩, ⟨101, by omega⟩, ⟨108, by omega⟩, ⟨108, by omega⟩,
          ⟨111, by omega⟩] := by
  have h := C8_roundtrip_write_read ⟨none, none, none⟩ (fun _ => none) "S1" "申請書" 0
    ⟨some "a.bin", none, some "aGVsbG8=", none⟩
    [⟨104, by omega⟩, ⟨101, by omega⟩, ⟨108, by omega⟩, ⟨108, by omega⟩, ⟨111, by omega⟩]
    (by decide) (by decide)
  exact ⟨(by decide : ("a.bin" : String) = sanitizeStr (fallbackName "申請書" 0)
      (displayName "申請書" 0 ⟨some "a.bin", none, some "aGVsbG8=", none⟩)) ▸
    h.2.1.trans (by decide), by decide⟩

/-- C10: `get_file_content` joins the storage root, `subsidy_id` and
`filename` literally, with no rejection or normalization of separators
or `..` components; consequently there are inputs — here the filename
`../../etc/passwd` — for which it reads and returns the content of an
existing file whose resolved path lies outside the record's directory
and outside the storage root `tmp`. -/
theorem C10_path_traversal_reads_outside_root :
    ∃ (sid fn : String) (fs : FS) (content : List Byte),
      (filePath sid fn).headI ≠ "tmp" ∧
      fs (filePath sid fn) = some content ∧
      getFileContent ⟨none, none, none⟩ fs sid fn "base64"
        = .rawBase64 fn (pyB64encode content) "application/octet-stream" content.length
            (dataUri "application/octet-stream" (pyB64encode content)) := by
  refine ⟨"abc", "../../etc/passwd",
    fun p => if p = ["etc", "passwd"] then some [(65 : Byte)] else none, [(65 : Byte)],
    by decide, by decide, by decide⟩

end JG
